/-
Verification of the change-detection and event-fan-out pipeline of the
e-commerce platform (Go sources: internal/crawler, internal/analyzer,
internal/notification).

The Go code is shallowly embedded: prices are modelled as rationals, stock
counts and timestamps (seconds) as integers, Go maps as association lists,
GORM tables as lists of rows, and the database transaction of
`saveProduct` as a staged copy of the store that becomes visible only on
commit.  Fallible database steps are driven by an explicit failure oracle.
-/
import Mathlib

/-! ## Generic association-list helpers (model of Go maps) -/

/-- Lookup in a Go map modelled as an association list (first match). -/
def lookupAssoc {κ α : Type} [BEq κ] (l : List (κ × α)) (k : κ) : Option α :=
  (l.find? (fun e => e.1 == k)).map (fun e => e.2)

/-- Go map write `m[k] = v`: overwrite the existing entry or append a new one. -/
def setAssoc {κ α : Type} [BEq κ] (l : List (κ × α)) (k : κ) (v : α) : List (κ × α) :=
  if l.any (fun e => e.1 == k) then
    l.map (fun e => if e.1 == k then (k, v) else e)
  else
    l ++ [(k, v)]

/-- Go map delete `delete(m, k)`. -/
def removeAssoc {κ α : Type} [BEq κ] (l : List (κ × α)) (k : κ) : List (κ × α) :=
  l.filter (fun e => e.1 != k)

/-- The keys of an association list. -/
def assocKeys {κ α : Type} (l : List (κ × α)) : List κ :=
  l.map (fun e => e.1)

/-! ## Data model (internal/common/models/product.go) -/

/-- models.Variant: the fields used by the pipeline (identity, product link,
external identifier, prices, stock). -/
structure Variant where
  id : Nat
  productId : Nat
  externalId : String
  price : ℚ
  originalPrice : ℚ
  stockCount : Int
  deriving Repr, DecidableEq

/-- models.Product: the fields used by the pipeline; variants are carried with
their product row (the variants table keyed by product_id). -/
structure Product where
  id : Nat
  externalId : String
  name : String
  url : String
  isActive : Bool
  createdAt : Int
  variants : List Variant
  deriving Repr, DecidableEq

/-- models.PriceHistory: immutable price change record. -/
structure PriceHistory where
  productId : Nat
  variantId : Nat
  previousPrice : ℚ
  newPrice : ℚ
  changePercent : ℚ
  deriving Repr, DecidableEq

/-- models.StockHistory: immutable stock change record. -/
structure StockHistory where
  productId : Nat
  variantId : Nat
  previousStock : Int
  newStock : Int
  changeQuantity : Int
  deriving Repr, DecidableEq

/-- The relational store as seen by the crawler service: product rows (with
their variants), the two history tables, and the next fresh row id. -/
structure Store where
  products : List Product
  priceHistories : List PriceHistory
  stockHistories : List StockHistory
  nextId : Nat
  deriving Repr, DecidableEq

/-! ## Crawler service: percentage change and the diff transaction
(internal/crawler/service.go, `saveProduct` / `calculatePercentageChange`) -/

/-- calculatePercentageChange from internal/crawler/service.go. -/
def calculatePercentageChange (oldPrice newPrice : ℚ) : ℚ :=
  if oldPrice = 0 then 0 else ((newPrice - oldPrice) / oldPrice) * 100

/-- `tx.Where("external_id = ?", ...).First(&existingProduct)`. -/
def findProductByExternalId (s : Store) (extId : String) : Option Product :=
  s.products.find? (fun p => p.externalId == extId)

/-- `tx.Where("product_id = ?", id).Find(&existingVariants)`. -/
def variantsOfProduct (s : Store) (pid : Nat) : List Variant :=
  match s.products.find? (fun p => p.id == pid) with
  | some p => p.variants
  | none => []

/-- Lookup in `existingVariantMap`: the Go map is built by iterating the
variant list, so a later entry overwrites an earlier one with the same
external id; the last match wins. -/
def lookupVariantMap (vs : List Variant) (extId : String) : Option Variant :=
  vs.reverse.find? (fun v => v.externalId == extId)

/-- The variant-comparison loop of `saveProduct`.  `fail n` tells whether the
n-th fallible database operation of the transaction errors; `tx` is the staged
transaction state.  Returns the reconciled incoming variants, the staged state
and the next operation index, or the error that forces a rollback. -/
def diffVariants (fail : Nat → Bool) (existingId : Nat)
    (existingVariants : List Variant) :
    List Variant → Store → Nat → Except String (List Variant × Store × Nat)
  | [], tx, n => .ok ([], tx, n)
  | v :: rest, tx, n =>
    match lookupVariantMap existingVariants v.externalId with
    | some ev =>
      let priceStep : Except String (Store × Nat) :=
        if ev.price ≠ v.price then
          if fail n then .error "failed to create price history"
          else
            .ok ({ tx with priceHistories := tx.priceHistories ++
                    [⟨existingId, ev.id, ev.price, v.price,
                      calculatePercentageChange ev.price v.price⟩] }, n + 1)
        else .ok (tx, n)
      match priceStep with
      | .error e => .error e
      | .ok (tx1, n1) =>
        let stockStep : Except String (Store × Nat) :=
          if ev.stockCount ≠ v.stockCount then
            if fail n1 then .error "failed to create stock history"
            else
              .ok ({ tx1 with stockHistories := tx1.stockHistories ++
                      [⟨existingId, ev.id, ev.stockCount, v.stockCount,
                        v.stockCount - ev.stockCount⟩] }, n1 + 1)
          else .ok (tx1, n1)
        match stockStep with
        | .error e => .error e
        | .ok (tx2, n2) =>
          match diffVariants fail existingId existingVariants rest tx2 n2 with
          | .error e => .error e
          | .ok (vs, tx3, n3) =>
            .ok ({ v with id := ev.id, productId := existingId } :: vs, tx3, n3)
    | none =>
      match diffVariants fail existingId existingVariants rest tx n with
      | .error e => .error e
      | .ok (vs, tx3, n3) => .ok (v :: vs, tx3, n3)

/-- GORM id assignment on insert: a variant whose id is 0 receives the next
fresh row id; every saved variant is linked to its product row. -/
def assignVariantIds (pid : Nat) : List Variant → Nat → List Variant × Nat
  | [], next => ([], next)
  | v :: rest, next =>
    if v.id = 0 then
      let (vs, next') := assignVariantIds pid rest (next + 1)
      ({ v with id := next, productId := pid } :: vs, next')
    else
      let (vs, next') := assignVariantIds pid rest next
      ({ v with productId := pid } :: vs, next')

/-- `tx.Save(product)`: update the row whose primary key matches a nonzero id,
otherwise insert a fresh row; variants are upserted with the product. -/
def txSave (tx : Store) (p : Product) : Store :=
  if (p.id != 0) && tx.products.any (fun q => q.id == p.id) then
    let (vs, next') := assignVariantIds p.id p.variants tx.nextId
    { tx with
      products := tx.products.map
        (fun q => if q.id == p.id then { p with variants := vs } else q),
      nextId := next' }
  else
    let pid := tx.nextId
    let (vs, next') := assignVariantIds pid p.variants (tx.nextId + 1)
    { tx with
      products := tx.products ++ [{ p with id := pid, variants := vs }],
      nextId := next' }

/-- saveProduct from internal/crawler/service.go: the whole reconciliation runs
in one transaction; every error path performs `tx.Rollback()` (the staged state
is discarded) and only `tx.Commit()` publishes the staged state.
Fallible steps, in order: Begin (0), the fetch of existing variants (1), one
step per created history record, the product upsert, the commit. -/
def saveProduct (store : Store) (product : Product) (fail : Nat → Bool) :
    Except String Store :=
  if fail 0 then .error "begin failed"
  else
    match findProductByExternalId store product.externalId with
    | some existingProduct =>
      let product1 := { product with
        id := existingProduct.id, createdAt := existingProduct.createdAt }
      if fail 1 then .error "failed to fetch existing variants"
      else
        let existingVariants := variantsOfProduct store existingProduct.id
        match diffVariants fail existingProduct.id existingVariants
            product1.variants store 2 with
        | .error e => .error e
        | .ok (vs, tx, n) =>
          let product2 := { product1 with variants := vs }
          if fail n then .error "failed to save product"
          else
            let tx' := txSave tx product2
            if fail (n + 1) then .error "failed to commit transaction"
            else .ok tx'
    | none =>
      if fail 1 then .error "failed to save product"
      else
        let tx' := txSave store product
        if fail 2 then .error "failed to commit transaction"
        else .ok tx'

/-- The observable outcome of one `saveProduct` call: on success the committed
store, on any failure the store as it was before the call (rollback). -/
def saveProductRun (store : Store) (product : Product) (fail : Nat → Bool) :
    Bool × Store :=
  match saveProduct store product fail with
  | .ok s => (true, s)
  | .error _ => (false, store)

/-- Failure oracle under which every database operation succeeds. -/
def noFail : Nat → Bool := fun _ => false

/-! ## Crawler service: priority banding and priority mutations
(internal/crawler/service.go, internal/crawler/api.go) -/

/-- The in-memory priority table `Service.priorityList : map[string]int`,
modelled as an association list from product external id to priority band. -/
abbrev PriorityList := List (String × Int)

/-- `maxProducts` from `crawlRegularPriorityProducts`. -/
def maxProducts : Nat := 100

/-- The batch selected by `crawlRegularPriorityProducts`: ids whose priority is
below 5, truncated to `maxProducts` entries. -/
def regularPriorityProducts (priorityList : PriorityList) : List String :=
  (((priorityList.filter (fun e => e.2 < 5)).map (fun e => e.1)).take maxProducts)

/-- The batch selected by `crawlHighPriorityProducts`: ids whose priority is
at least 5 (no truncation). -/
def highPriorityProducts (priorityList : PriorityList) : List String :=
  ((priorityList.filter (fun e => 5 ≤ e.2)).map (fun e => e.1))

/-- `updateProductPriority` from internal/crawler/api.go: reject a band outside
[0,10] (before any lookup, leaving the table untouched), reject a missing
product, otherwise overwrite the entry.  `productExists` models the database
lookup of the product by external id. -/
def updateProductPriority (priorityList : PriorityList) (productId : String)
    (priority : Int) (productExists : Bool) : Except String PriorityList :=
  if priority < 0 ∨ priority > 10 then
    .error "Priority must be between 0 and 10"
  else if productExists = false then
    .error "Product not found"
  else
    .ok (setAssoc priorityList productId priority)

/-- The message handler installed by `listenForPriorityUpdates`
(internal/crawler/service.go): the decoded priority is written to the table
as is. -/
def listenForPriorityUpdatesHandler (priorityList : PriorityList)
    (productId : String) (priority : Int) : PriorityList :=
  setAssoc priorityList productId priority

/-- `loadPriorityList`: every favorited product receives band 10 at startup;
`favorites` is the list of favorited product external ids. -/
def loadPriorityList (favorites : List String) (priorityList : PriorityList) :
    PriorityList :=
  favorites.foldl (fun pl extId => setAssoc pl extId 10) priorityList

/-- The default-priority write of `crawlProductsByCategory`: a known product
absent from the table receives band 1. -/
def ensureDefaultPriority (priorityList : PriorityList) (productId : String) :
    PriorityList :=
  if (lookupAssoc priorityList productId).isSome then priorityList
  else setAssoc priorityList productId 1

/-- Every band stored in the priority table lies in [0,10]. -/
def bandsInRange (priorityList : PriorityList) : Prop :=
  ∀ e ∈ priorityList, 0 ≤ e.2 ∧ e.2 ≤ 10

instance (priorityList : PriorityList) : Decidable (bandsInRange priorityList) :=
  inferInstanceAs (Decidable (∀ e ∈ priorityList, 0 ≤ e.2 ∧ e.2 ≤ 10))

/-! ## Analyzer service: alert matching
(internal/analyzer/service.go, `processProductUpdate`) -/

/-- The `priceAlert` record of internal/analyzer/service.go; the timestamp is
in seconds. -/
structure PriceAlert where
  userId : Nat
  productId : Nat
  variantId : Nat
  discountPercent : ℚ
  lastNotification : Int
  deriving Repr, DecidableEq

/-- The notify-event payload published to the notification topic by
`processProductUpdate`. -/
structure PriceDropNotification where
  userId : Nat
  productId : Nat
  variantId : Nat
  previousPrice : ℚ
  newPrice : ℚ
  discountPercent : ℚ
  productName : String
  productURL : String
  deriving Repr, DecidableEq

/-- The update loop run after a successful publish: every stored alert for the
product whose user matches the notified alert's user gets its
last-notification time set to now. -/
def updateLastNotificationTimes (now : Int) (userId : Nat)
    (alerts : List PriceAlert) : List PriceAlert :=
  alerts.map (fun a =>
    if a.userId == userId then { a with lastNotification := now } else a)

/-- The inner loop of `processProductUpdate` over the fetched price history
records, for one alert.  `alert` is the Go range-loop copy of the alert, fixed
for the whole pass; `alerts` is the live table entry for the product, which the
update loop mutates in place.  `findVariant` models the variant lookup by row
id; a failed lookup skips the record.  `pubFail` tells whether publishing a
given payload fails (failure is logged and the timestamp is not updated). -/
def processHistories (now : Int) (findVariant : Nat → Option Variant)
    (pubFail : PriceDropNotification → Bool) (product : Product)
    (alert : PriceAlert) :
    List PriceHistory → List PriceAlert → List PriceDropNotification →
    List PriceAlert × List PriceDropNotification
  | [], alerts, sent => (alerts, sent)
  | h :: rest, alerts, sent =>
    if h.changePercent ≤ -alert.discountPercent ∧
        now - alert.lastNotification > 24 * 3600 then
      match findVariant h.variantId with
      | none => processHistories now findVariant pubFail product alert rest alerts sent
      | some variant =>
        let payload : PriceDropNotification :=
          ⟨alert.userId, product.id, variant.id, h.previousPrice, h.newPrice,
            -h.changePercent, product.name, product.url⟩
        if pubFail payload then
          processHistories now findVariant pubFail product alert rest alerts sent
        else
          processHistories now findVariant pubFail product alert rest
            (updateLastNotificationTimes now alert.userId alerts)
            (sent ++ [payload])
    else processHistories now findVariant pubFail product alert rest alerts sent

/-- The outer loop of `processProductUpdate` over the alerts of the product.
The Go loop ranges over the slice header captured at entry; its backing array
is shared with the table entry, so iteration `i` reads the current value at
index `i`, while the history pass for that iteration works on the copy it
took.  `k` is the remaining iteration count. -/
def processAlertsAux (now : Int) (findVariant : Nat → Option Variant)
    (pubFail : PriceDropNotification → Bool) (product : Product)
    (histories : List PriceHistory) :
    Nat → Nat → List PriceAlert → List PriceDropNotification →
    List PriceAlert × List PriceDropNotification
  | 0, _, alerts, sent => (alerts, sent)
  | k + 1, i, alerts, sent =>
    match alerts.get? i with
    | none => (alerts, sent)
    | some alert =>
      let (alerts', sent') :=
        processHistories now findVariant pubFail product alert histories alerts sent
      processAlertsAux now findVariant pubFail product histories k (i + 1) alerts' sent'

/-- `processProductUpdate` from internal/analyzer/service.go, given the product
row fetched for the event and the most recent price history records fetched
for it (newest first, at most 10).  Returns the updated alert table and the
published notify-events. -/
def processProductUpdate (now : Int) (findVariant : Nat → Option Variant)
    (pubFail : PriceDropNotification → Bool) (product : Product)
    (priceHistories : List PriceHistory)
    (priceAlerts : List (Nat × List PriceAlert)) :
    List (Nat × List PriceAlert) × List PriceDropNotification :=
  match lookupAssoc priceAlerts product.id with
  | some alerts =>
    if priceHistories.length > 0 then
      let (alerts', sent) :=
        processAlertsAux now findVariant pubFail product priceHistories
          alerts.length 0 alerts []
      (setAssoc priceAlerts product.id alerts', sent)
    else (priceAlerts, [])
  | none => (priceAlerts, [])

/-! ## Shared-state access sites (crawler `Service.priorityList` guarded by
`priorityMux`; analyzer `Service.priceAlerts`, which has no mutex) -/

/-- The two in-memory tables shared across goroutines. -/
inductive SharedTable
  | priorityTable
  | alertTable
  deriving Repr, DecidableEq

/-- One source location that reads or writes a shared table, with whether the
Go code performs the access under the table's mutual-exclusion lock. -/
structure TableAccess where
  table : SharedTable
  location : String
  isWrite : Bool
  lockHeld : Bool
  deriving Repr, DecidableEq

/-- Every access to `Service.priorityList` (crawler) and `Service.priceAlerts`
(analyzer) in the source, transcribed site by site.  The crawler wraps each
access in `priorityMux.Lock` or `priorityMux.RLock`; the analyzer `Service`
declares no mutex, so none of its table accesses holds a lock. -/
def sharedTableAccesses : List TableAccess :=
  [⟨.priorityTable, "crawler.Service.loadPriorityList", true, true⟩,
   ⟨.priorityTable, "crawler.Service.crawlProductsByCategory", true, true⟩,
   ⟨.priorityTable, "crawler.Service.crawlRegularPriorityProducts", false, true⟩,
   ⟨.priorityTable, "crawler.Service.crawlHighPriorityProducts", false, true⟩,
   ⟨.priorityTable, "crawler.API.updateProductPriority", true, true⟩,
   ⟨.priorityTable, "crawler.Service.listenForPriorityUpdates", true, true⟩,
   ⟨.alertTable, "analyzer.Service.loadPriceAlerts", true, false⟩,
   ⟨.alertTable, "analyzer.Service.processProductUpdate", true, false⟩,
   ⟨.alertTable, "analyzer.API.createPriceAlert", true, false⟩,
   ⟨.alertTable, "analyzer.API.getUserPriceAlerts", false, false⟩,
   ⟨.alertTable, "analyzer.API.deletePriceAlert", true, false⟩]

/-! ## Notification fan-out service
(internal/notification/service.go, internal/notification/api.go) -/

/-- The information content of the rendered string
`"Price drop alert: %s is now %.2f (was %.2f, %.1f%% discount)"` that is
persisted and pushed onto the live channel. -/
structure NotificationMessage where
  productName : String
  newPrice : ℚ
  previousPrice : ℚ
  discountPercent : ℚ
  deriving Repr, DecidableEq

/-- models.Notification as written by `consumeNotifications` (is_read defaults
to false). -/
structure NotificationRow where
  userId : Nat
  productId : Nat
  message : NotificationMessage
  isRead : Bool
  deliveredAt : Int
  deriving Repr, DecidableEq

/-- `make(chan string, 100)`: a bounded channel with its queued messages and
closed flag.  Closing a Go channel does not discard queued messages. -/
structure LiveChannel where
  buf : List NotificationMessage
  closed : Bool
  deriving Repr, DecidableEq

/-- The capacity of a user's live channel. -/
def channelCapacity : Nat := 100

/-- The notification service state: the persisted notifications table, the
arena of every channel ever created (indexed by creation order, so a handler
can keep receiving from a channel that was replaced in the map), and the
`userChannels` map from user id to channel index. -/
structure NotifState where
  rows : List NotificationRow
  chans : List LiveChannel
  userChannels : List (Nat × Nat)
  deriving Repr, DecidableEq

/-- Render the notification message (see `NotificationMessage`). -/
def renderMessage (n : PriceDropNotification) : NotificationMessage :=
  ⟨n.productName, n.newPrice, n.previousPrice, n.discountPercent⟩

/-- `close(channel)` on the channel at index `cid`: the buffer is kept. -/
def closeChan (st : NotifState) (cid : Nat) : NotifState :=
  match st.chans.get? cid with
  | none => st
  | some ch => { st with chans := st.chans.set cid { ch with closed := true } }

/-- The non-blocking `select { case channel <- msg: default: }` send: the
message is enqueued when the channel has room, and silently dropped when the
buffer is full (a channel reachable through `userChannels` is never closed;
the closed check mirrors the drop observed in that situation). -/
def sendNonBlocking (st : NotifState) (cid : Nat) (msg : NotificationMessage) :
    NotifState :=
  match st.chans.get? cid with
  | none => st
  | some ch =>
    if ch.closed = false ∧ ch.buf.length < channelCapacity then
      { st with chans := st.chans.set cid { ch with buf := ch.buf ++ [msg] } }
    else st

/-- The persistence step of the `consumeNotifications` handler:
`s.db.Create(&dbNotification)` appends one unread row; its failure is only
logged and processing continues. -/
def persistNotification (now : Int) (dbFail : Bool) (st : NotifState)
    (n : PriceDropNotification) : NotifState :=
  if dbFail then st
  else { st with rows := st.rows ++ [⟨n.userId, n.productId, renderMessage n, false, now⟩] }

/-- The delivery step of the `consumeNotifications` handler: look up the
target user's channel and, if present, attempt the non-blocking send. -/
def deliverLive (st : NotifState) (userId : Nat) (msg : NotificationMessage) :
    NotifState :=
  match lookupAssoc st.userChannels userId with
  | none => st
  | some cid => sendNonBlocking st cid msg

/-- The message handler of `consumeNotifications` for one decoded notify-event:
render the message, persist one notification row, then attempt a non-blocking
live delivery to the target user's channel, if any.  The handler never returns
an error for a decoded event. -/
def consumeNotification (now : Int) (dbFail : Bool) (st : NotifState)
    (n : PriceDropNotification) : Except String NotifState :=
  .ok (deliverLive (persistNotification now dbFail st n) n.userId (renderMessage n))

/-- RegisterUserChannel from internal/notification/service.go: close any prior
channel of the user, create a fresh bounded channel and map the user to it.
Returns the new state and the index of the new channel. -/
def RegisterUserChannel (st : NotifState) (userId : Nat) : NotifState × Nat :=
  let st1 :=
    match lookupAssoc st.userChannels userId with
    | some cid => closeChan st cid
    | none => st
  let cid := st1.chans.length
  ({ st1 with
      chans := st1.chans ++ [⟨[], false⟩],
      userChannels := setAssoc st1.userChannels userId cid }, cid)

/-- UnregisterUserChannel: close the user's channel and remove the map entry. -/
def UnregisterUserChannel (st : NotifState) (userId : Nat) : NotifState :=
  match lookupAssoc st.userChannels userId with
  | some cid =>
    let st1 := closeChan st cid
    { st1 with userChannels := removeAssoc st1.userChannels userId }
  | none => st

/-- The result of one `msg, ok := <-ch` receive. -/
inductive RecvResult
  | msg (m : NotificationMessage) (st : NotifState)
  | terminated
  | blocked
  deriving Repr, DecidableEq

/-- One receive on the channel at index `cid`, with Go semantics: a queued
message is delivered even when the channel is closed (the buffer is drained
first); an empty closed channel reports termination (`ok = false`); an empty
open channel blocks. -/
def chanReceive (st : NotifState) (cid : Nat) : RecvResult :=
  match st.chans.get? cid with
  | none => .blocked
  | some ch =>
    match ch.buf with
    | m :: rest => .msg m { st with chans := st.chans.set cid { ch with buf := rest } }
    | [] => if ch.closed then .terminated else .blocked

/-! ## Characterization helpers and concrete instances used by the theorems -/

/-- The price change records the comparison loop creates for one incoming
variant (used to characterize `diffVariants`). -/
def priceRecordsFor (pid : Nat) (evs : List Variant) (v : Variant) :
    List PriceHistory :=
  match lookupVariantMap evs v.externalId with
  | some ev =>
    if ev.price ≠ v.price then
      [⟨pid, ev.id, ev.price, v.price, calculatePercentageChange ev.price v.price⟩]
    else []
  | none => []

/-- The stock change records the comparison loop creates for one incoming
variant. -/
def stockRecordsFor (pid : Nat) (evs : List Variant) (v : Variant) :
    List StockHistory :=
  match lookupVariantMap evs v.externalId with
  | some ev =>
    if ev.stockCount ≠ v.stockCount then
      [⟨pid, ev.id, ev.stockCount, v.stockCount, v.stockCount - ev.stockCount⟩]
    else []
  | none => []

/-- The identity rewrite the comparison loop applies to one incoming variant:
a matched variant inherits the stored row's id. -/
def reconcileVariant (pid : Nat) (evs : List Variant) (v : Variant) : Variant :=
  match lookupVariantMap evs v.externalId with
  | some ev => { v with id := ev.id, productId := pid }
  | none => v

/-- Number of history-record inserts the comparison loop performs. -/
def diffOpCount (pid : Nat) (evs : List Variant) (incoming : List Variant) : Nat :=
  (incoming.flatMap (priceRecordsFor pid evs)).length +
    (incoming.flatMap (stockRecordsFor pid evs)).length

/-- Stored state for the diff-correctness scenario: one item "P1" whose single
variant "V1" (row id 2) has price 100 and stock 5. -/
def c1Store : Store :=
  ⟨[⟨1, "P1", "Demo", "u", true, 0, [⟨2, 1, "V1", 100, 100, 5⟩]⟩], [], [], 3⟩

/-- Incoming snapshot of "P1": variant "V1" now has price 80, stock still 5. -/
def c1Incoming : Product :=
  ⟨0, "P1", "Demo", "u", true, 0, [⟨0, 0, "V1", 80, 100, 5⟩]⟩

/-- Failure oracle that fails the product-upsert step of the `c1Store` /
`c1Incoming` reconciliation (operation 3: after begin, variant fetch and the
staged price-record insert). -/
def failUpsert : Nat → Bool := fun n => n == 3

/-- Variant lookup used in the alert-matching scenarios: row id `i` resolves to
a variant with that id. -/
def c3FindVariant : Nat → Option Variant := fun i => some ⟨i, 1, "V1", 80, 100, 5⟩

/-- Product row for the alert-matching scenarios. -/
def c3Product : Product := ⟨1, "P1", "Demo", "u", true, 0, []⟩

/-- A -20% price change record on product 1, variant 2. -/
def c3Record1 : PriceHistory := ⟨1, 2, 100, 80, -20⟩

/-- A second, distinct -20% price change record in the same fetched batch. -/
def c3Record2 : PriceHistory := ⟨1, 2, 90, 72, -20⟩

/-- Event-processing time for the alert-matching scenarios (seconds). -/
def c3Now : Int := 1000000

/-- Alert table for the frame-effect scenario: user 7 holds two rules on
product 1 (thresholds 15% and 50%), user 8 holds a 50% rule. -/
def c10Alerts : List PriceAlert := [⟨7, 1, 0, 15, 0⟩, ⟨7, 1, 0, 50, 0⟩, ⟨8, 1, 0, 50, 0⟩]

/-- Priority table for the banding scenario: item "A" at band 7, "B" at 3. -/
def c4List : PriorityList := [("A", 7), ("B", 3)]

/-- A live-channel message used to fill a channel to capacity. -/
def c5Msg : NotificationMessage := ⟨"X", 1, 2, 3⟩

/-- Fan-out state whose single registered channel (user 1) is full. -/
def c5State : NotifState := ⟨[], [⟨List.replicate 100 c5Msg, false⟩], [(1, 0)]⟩

/-- The notify-event consumed in the full-channel scenario. -/
def c5Event : PriceDropNotification := ⟨1, 4, 2, 100, 80, 20, "Demo", "u"⟩

/-- Expected state after consuming `c5Event` on `c5State`: the record is
persisted, the full channel is untouched. -/
def c5After : NotifState :=
  { c5State with rows := [⟨1, 4, renderMessage c5Event, false, 0⟩] }

/-- The notify-event consumed in the channel-replacement scenario. -/
def c6Event : PriceDropNotification := ⟨1, 1, 2, 100, 80, 20, "Demo", "u"⟩

/-- User 1 connects: channel 0 is created. -/
def c6State1 : NotifState := (RegisterUserChannel ⟨[], [], []⟩ 1).1

/-- A notify-event for user 1 is consumed: its message is queued on channel 0. -/
def c6State2 : NotifState :=
  match consumeNotification 0 false c6State1 c6Event with
  | .ok s => s
  | .error _ => c6State1

/-- User 1 connects again: channel 0 is closed and replaced by channel 1. -/
def c6State3 : NotifState := (RegisterUserChannel c6State2 1).1

/-- The message delivered by a receive, if any. -/
def deliveredMessage : RecvResult → Option NotificationMessage
  | .msg m _ => some m
  | _ => none

/-- Empty store with first fresh row id 1 (new-item scenario). -/
def c8Store : Store := ⟨[], [], [], 1⟩

/-- A never-before-seen item snapshot with two variants. -/
def c8Snapshot : Product :=
  ⟨0, "P9", "New", "u", true, 7, [⟨0, 0, "VA", 10, 12, 3⟩, ⟨0, 0, "VB", 20, 22, 4⟩]⟩

/-! ## C4: priority banding -/

/-- C4: the high-band tick selects exactly the table entries with band at
least 5; the low-band tick selects only entries with band below 5 and at most
`maxProducts` of them, and selects every such entry when no truncation is
needed; in the two-item table `c4List`, item "A" (band 7) is selected by the
high-band tick and not the low-band tick, and item "B" (band 3) the reverse. -/
theorem priority_banding :
    (∀ (pl : PriorityList) (id : String),
        id ∈ highPriorityProducts pl ↔ ∃ b, (id, b) ∈ pl ∧ 5 ≤ b)
    ∧ (∀ (pl : PriorityList) (id : String),
        id ∈ regularPriorityProducts pl → ∃ b, (id, b) ∈ pl ∧ b < 5)
    ∧ (∀ pl : PriorityList, (regularPriorityProducts pl).length ≤ maxProducts)
    ∧ (∀ pl : PriorityList,
        (pl.filter (fun e => e.2 < 5)).length ≤ maxProducts →
        ∀ id b, (id, b) ∈ pl → b < 5 → id ∈ regularPriorityProducts pl)
    ∧ ("A" ∈ highPriorityProducts c4List ∧ "A" ∉ regularPriorityProducts c4List
        ∧ "B" ∈ regularPriorityProducts c4List ∧ "B" ∉ highPriorityProducts c4List) := by
  refine ⟨?_, ?_, ?_, ?_, ?_⟩
  · intro pl id
    constructor
    · intro h
      simp only [highPriorityProducts, List.mem_map, List.mem_filter,
        decide_eq_true_eq] at h
      obtain ⟨e, ⟨hmem, hb⟩, rfl⟩ := h
      exact ⟨e.2, hmem, hb⟩
    · rintro ⟨b, hmem, hb⟩
      simp only [highPriorityProducts, List.mem_map, List.mem_filter,
        decide_eq_true_eq]
      exact ⟨(id, b), ⟨hmem, hb⟩, rfl⟩
  · intro pl id h
    have h' := List.mem_of_mem_take h
    simp only [List.mem_map, List.mem_filter, decide_eq_true_eq] at h'
    obtain ⟨e, ⟨hmem, hb⟩, rfl⟩ := h'
    exact ⟨e.2, hmem, hb⟩
  · intro pl
    exact List.length_take_le _ _
  · intro pl hlen id b hmem hb
    unfold regularPriorityProducts
    rw [List.take_of_length_le (by simpa using hlen)]
    simp only [List.mem_map, List.mem_filter, decide_eq_true_eq]
    exact ⟨(id, b), ⟨hmem, hb⟩, rfl⟩
  · refine ⟨?_, ?_, ?_, ?_⟩ <;> decide

/-- Witness for C4 at concrete inputs: item "B" of `c4List` is in the low-band
selection, hence some band below 5 is recorded for it; and with every low band
fitting the cap, an entry of band 3 is selected by the low-band tick. -/
theorem priority_banding_witness :
    (∃ b, (("B" : String), b) ∈ c4List ∧ b < 5) ∧ "B" ∈ regularPriorityProducts c4List :=
  ⟨priority_banding.2.1 c4List "B" (by decide),
   priority_banding.2.2.2.1 c4List (by decide) "B" 3 (by decide) (by decide)⟩

/-! ## C9: shared-table locking discipline -/

/-- C9 does not hold as stated: the analyzer's alert table is accessed with no
lock.  This access-site, transcribed from `createPriceAlert`
(internal/analyzer/api.go), appends to `Service.priceAlerts` from an HTTP
handler goroutine while holding no mutual-exclusion lock, so not every shared
table access is lock-protected. -/
theorem shared_table_locking_gap :
    (⟨SharedTable.alertTable, "analyzer.API.createPriceAlert", true, false⟩ : TableAccess)
        ∈ sharedTableAccesses
    ∧ ¬ (∀ a ∈ sharedTableAccesses, a.lockHeld = true) := by
  constructor
  · decide
  · intro h
    exact absurd
      (h ⟨SharedTable.alertTable, "analyzer.API.createPriceAlert", true, false⟩ (by decide))
      (by decide)

/-- C9 (amended): every access to the PriorityEntry table crossing goroutine
boundaries is performed under `priorityMux`; the AlertRule table, however, is
guarded by no lock at all — the analyzer `Service` declares no mutex and each
of its table accesses (startup load, consume loop, API handlers) is
unsynchronized. -/
theorem shared_table_locking :
    (∀ a ∈ sharedTableAccesses, a.table = SharedTable.priorityTable → a.lockHeld = true)
    ∧ (∀ a ∈ sharedTableAccesses, a.table = SharedTable.alertTable → a.lockHeld = false)
    ∧ (∃ a ∈ sharedTableAccesses, a.table = SharedTable.alertTable ∧ a.isWrite = true) := by
  refine ⟨?_, ?_, ?_⟩ <;> decide

/-- Witness for C9's amended theorem: the crawler API's priority write is
lock-protected, the analyzer API's alert write is not. -/
theorem shared_table_locking_witness :
    (⟨SharedTable.priorityTable, "crawler.API.updateProductPriority", true, true⟩ : TableAccess).lockHeld = true
    ∧ (⟨SharedTable.alertTable, "analyzer.API.createPriceAlert", true, false⟩ : TableAccess).lockHeld = false :=
  ⟨shared_table_locking.1 _ (by decide) (by decide),
   shared_table_locking.2.1 _ (by decide) (by decide)⟩

/-! ## C7: priority bands stay in [0,10] -/

/-- Writing an in-range band through the Go map-write keeps every band of the
table in range. -/
theorem bandsInRange_setAssoc {pl : PriorityList} {id : String} {p : Int}
    (h : bandsInRange pl) (h0 : 0 ≤ p) (h1 : p ≤ 10) :
    bandsInRange (setAssoc pl id p) := by
  intro e he
  unfold setAssoc at he
  by_cases hany : pl.any (fun e => e.1 == id) = true
  · rw [if_pos hany] at he
    rw [List.mem_map] at he
    obtain ⟨a, ha, rfl⟩ := he
    by_cases hk : (a.1 == id) = true
    · simp only [hk, if_true]
      exact ⟨h0, h1⟩
    · simp only [hk]
      simp only [Bool.false_eq_true, if_false]
      exact h a ha
  · rw [if_neg hany] at he
    rcases List.mem_append.mp he with hl | hr
    · exact h e hl
    · simp only [List.mem_singleton] at hr
      subst hr
      exact ⟨h0, h1⟩

/-- The overwrite reaches the map: after `m[k] = v`, looking up `k` yields
`v`. -/
theorem lookupAssoc_setAssoc {κ α : Type} [BEq κ] [LawfulBEq κ]
    (l : List (κ × α)) (k : κ) (v : α) :
    lookupAssoc (setAssoc l k v) k = some v := by
  unfold lookupAssoc setAssoc
  by_cases hany : l.any (fun e => e.1 == k) = true
  · rw [if_pos hany]
    induction l with
    | nil => simp at hany
    | cons e rest ih =>
      by_cases hk : (e.1 == k) = true
      · simp [List.find?, hk]
      · simp only [List.any_cons, hk, Bool.false_or] at hany
        simp only [List.map_cons, hk, if_false, Bool.false_eq_true]
        simp only [List.find?, hk]
        exact ih hany
  · rw [if_neg hany]
    have hnone : l.find? (fun e => e.1 == k) = none := by
      rw [List.find?_eq_none]
      intro x hx hpx
      exact hany (List.any_eq_true.mpr ⟨x, hx, hpx⟩)
    rw [List.find?_append, hnone]
    simp [List.find?]

/-- C7 does not hold as stated: the consumer installed by
`listenForPriorityUpdates` performs no range check, so a priority-update
message carrying band 11 installs 11 into a previously valid (empty) table,
leaving a band outside [0,10]. -/
theorem priority_band_invariant_broken :
    bandsInRange ([] : PriorityList)
    ∧ ¬ bandsInRange (listenForPriorityUpdatesHandler [] "P1" 11) := by
  constructor
  · decide
  · decide

/-- C7 (amended): the invariant that every stored band lies in [0,10] holds
after startup loading and is preserved by the `setPriority` API call — which
rejects an out-of-range band without touching the table and otherwise
overwrites the entry — and by the default-band write of the discovery pass;
the broker-driven update handler, however, performs no validation and installs
the message's band as is, so it preserves the invariant only for messages
whose band is already in [0,10] (the repository's only producer publishes
band 8). -/
theorem priority_band_invariant :
    (∀ (favorites : List String) (pl : PriorityList),
        bandsInRange pl → bandsInRange (loadPriorityList favorites pl))
    ∧ (∀ (pl : PriorityList) (id : String) (p : Int) (ex : Bool),
        p < 0 ∨ p > 10 →
        updateProductPriority pl id p ex = .error "Priority must be between 0 and 10")
    ∧ (∀ (pl : PriorityList) (id : String) (p : Int) (ex : Bool) (pl' : PriorityList),
        bandsInRange pl → updateProductPriority pl id p ex = .ok pl' →
        bandsInRange pl' ∧ lookupAssoc pl' id = some p)
    ∧ (∀ (pl : PriorityList) (id : String),
        bandsInRange pl → bandsInRange (ensureDefaultPriority pl id))
    ∧ (∀ (pl : PriorityList) (id : String) (p : Int),
        bandsInRange pl → 0 ≤ p → p ≤ 10 →
        bandsInRange (listenForPriorityUpdatesHandler pl id p)) := by
  refine ⟨?_, ?_, ?_, ?_, ?_⟩
  · intro favorites
    induction favorites with
    | nil => intro pl h; exact h
    | cons f rest ih =>
      intro pl h
      exact ih _ (bandsInRange_setAssoc h (by norm_num) (by norm_num))
  · intro pl id p ex hp
    unfold updateProductPriority
    rw [if_pos hp]
  · intro pl id p ex pl' h hok
    unfold updateProductPriority at hok
    by_cases hp : p < 0 ∨ p > 10
    · rw [if_pos hp] at hok
      exact absurd hok (by simp)
    · rw [if_neg hp] at hok
      push_neg at hp
      by_cases hex : ex = false
      · rw [if_pos hex] at hok
        exact absurd hok (by simp)
      · rw [if_neg hex] at hok
        simp only [Except.ok.injEq] at hok
        subst hok
        exact ⟨bandsInRange_setAssoc h hp.1 hp.2, lookupAssoc_setAssoc pl id p⟩
  · intro pl id h
    unfold ensureDefaultPriority
    by_cases hs : (lookupAssoc pl id).isSome = true
    · rw [if_pos hs]; exact h
    · rw [if_neg hs]
      exact bandsInRange_setAssoc h (by norm_num) (by norm_num)
  · intro pl id p h h0 h1
    exact bandsInRange_setAssoc h h0 h1

/-- Witness for C7's amended theorem: loading one favorite into the empty
table keeps bands in range; an in-range API write on that table succeeds,
stores band 4, and keeps bands in range; the broker handler at band 8
preserves the invariant. -/
theorem priority_band_invariant_witness :
    bandsInRange (loadPriorityList ["F"] [])
    ∧ (bandsInRange (setAssoc [("F", (10 : Int))] "A" 4) ∧
        lookupAssoc (setAssoc [("F", (10 : Int))] "A" 4) "A" = some 4)
    ∧ bandsInRange (listenForPriorityUpdatesHandler [("F", 10)] "A" 8) :=
  ⟨priority_band_invariant.1 ["F"] [] (by decide),
   priority_band_invariant.2.2.1 [("F", 10)] "A" 4 true
      (setAssoc [("F", (10 : Int))] "A" 4) (by decide) rfl,
   priority_band_invariant.2.2.2.2 [("F", 10)] "A" 8 (by decide) (by decide) (by decide)⟩

/-! ## C5: non-blocking fan-out delivery -/

/-- C5: the consume handler always succeeds on a decoded notify-event; with
the database insert succeeding it persists exactly one notification row; and
when the target user's channel is already at capacity, the channel is left
untouched (the extra message is dropped from live delivery) while the
persisted row is still appended. -/
theorem consume_nonblocking :
    (∀ (now : Int) (dbFail : Bool) (st : NotifState) (n : PriceDropNotification),
        ∃ st', consumeNotification now dbFail st n = .ok st')
    ∧ (∀ (now : Int) (st : NotifState) (n : PriceDropNotification) (st' : NotifState),
        consumeNotification now false st n = .ok st' →
        st'.rows = st.rows ++ [⟨n.userId, n.productId, renderMessage n, false, now⟩])
    ∧ (∀ (now : Int) (st : NotifState) (n : PriceDropNotification)
          (cid : Nat) (ch : LiveChannel) (st' : NotifState),
        lookupAssoc st.userChannels n.userId = some cid →
        st.chans.get? cid = some ch →
        ch.buf.length = channelCapacity →
        consumeNotification now false st n = .ok st' →
        st'.chans = st.chans
        ∧ st'.rows = st.rows ++ [⟨n.userId, n.productId, renderMessage n, false, now⟩]) := by
  have hrows : ∀ (st : NotifState) (userId : Nat) (msg : NotificationMessage),
      (deliverLive st userId msg).rows = st.rows := by
    intro st userId msg
    unfold deliverLive
    cases h : lookupAssoc st.userChannels userId with
    | none => rfl
    | some cid =>
      dsimp only
      unfold sendNonBlocking
      cases hg : List.get? st.chans cid with
      | none => rfl
      | some ch =>
        dsimp only
        split <;> rfl
  refine ⟨?_, ?_, ?_⟩
  · intro now dbFail st n
    exact ⟨_, rfl⟩
  · intro now st n st' h
    unfold consumeNotification at h
    rw [Except.ok.injEq] at h
    subst h
    rw [hrows]
    unfold persistNotification
    rw [if_neg Bool.false_ne_true]
  · intro now st n cid ch st' hl hc hfull h
    unfold consumeNotification at h
    rw [Except.ok.injEq] at h
    subst h
    have hpu : (persistNotification now false st n).userChannels = st.userChannels := by
      unfold persistNotification
      rw [if_neg Bool.false_ne_true]
    have hpc : (persistNotification now false st n).chans = st.chans := by
      unfold persistNotification
      rw [if_neg Bool.false_ne_true]
    constructor
    · unfold deliverLive
      simp only [hpu, hl]
      unfold sendNonBlocking
      simp only [hpc, hc]
      rw [if_neg]
      · exact hpc
      · rintro ⟨-, hlt⟩
        rw [hfull] at hlt
        exact absurd hlt (lt_irrefl _)
    · rw [hrows]
      unfold persistNotification
      rw [if_neg Bool.false_ne_true]

/-- Witness for C5: consuming `c5Event` on `c5State`, whose user-1 channel
holds 100 queued messages, leaves the channel untouched and persists the
row. -/
theorem consume_nonblocking_witness :
    c5After.chans = c5State.chans
    ∧ c5After.rows = c5State.rows ++ [⟨1, 4, renderMessage c5Event, false, 0⟩] :=
  consume_nonblocking.2.2 0 c5State c5Event 0 ⟨List.replicate 100 c5Msg, false⟩ c5After
    rfl rfl (by decide) rfl

/-! ## C6: channel lifecycle -/

/-- A Go map write keeps the keys of the modelled association list free of
duplicates. -/
theorem assocKeys_setAssoc_nodup {κ α : Type} [BEq κ] [LawfulBEq κ]
    {l : List (κ × α)} (k : κ) (v : α)
    (h : (assocKeys l).Nodup) : (assocKeys (setAssoc l k v)).Nodup := by
  unfold setAssoc
  by_cases hany : l.any (fun e => e.1 == k) = true
  · rw [if_pos hany]
    have hkeys : assocKeys (l.map (fun e => if e.1 == k then (k, v) else e)) = assocKeys l := by
      unfold assocKeys
      rw [List.map_map]
      apply List.map_congr_left
      intro a _
      by_cases hk : (a.1 == k) = true
      · simp only [Function.comp_apply, hk, if_true]
        exact (eq_of_beq hk).symm
      · simp only [Function.comp_apply, hk, Bool.false_eq_true, if_false]
    rw [hkeys]
    exact h
  · rw [if_neg hany]
    unfold assocKeys
    rw [List.map_append]
    rw [List.nodup_append]
    refine ⟨h, List.nodup_singleton _, ?_⟩
    intro x hx hx'
    simp only [List.map_cons, List.map_nil, List.mem_singleton] at hx'
    rw [hx'] at hx
    simp only [assocKeys, List.mem_map] at hx
    obtain ⟨e, he, hek⟩ := hx
    exact hany (List.any_eq_true.mpr ⟨e, he, by rw [hek]; exact beq_self_eq_true k⟩)

/-- A Go map delete keeps the keys free of duplicates. -/
theorem assocKeys_removeAssoc_nodup {κ α : Type} [BEq κ]
    {l : List (κ × α)} (k : κ)
    (h : (assocKeys l).Nodup) : (assocKeys (removeAssoc l k)).Nodup := by
  unfold removeAssoc
  exact h.sublist (List.Sublist.map _ (List.filter_sublist l))

/-- Closing a channel does not touch the user-channel map. -/
theorem closeChan_userChannels (st : NotifState) (cid : Nat) :
    (closeChan st cid).userChannels = st.userChannels := by
  unfold closeChan
  cases st.chans.get? cid <;> rfl

/-- Closing a channel does not change the number of channels. -/
theorem closeChan_chans_length (st : NotifState) (cid : Nat) :
    (closeChan st cid).chans.length = st.chans.length := by
  unfold closeChan
  cases st.chans.get? cid with
  | none => rfl
  | some ch => simp

/-- The non-blocking send does not touch the user-channel map. -/
theorem sendNonBlocking_userChannels (st : NotifState) (cid : Nat)
    (msg : NotificationMessage) :
    (sendNonBlocking st cid msg).userChannels = st.userChannels := by
  unfold sendNonBlocking
  cases st.chans.get? cid with
  | none => rfl
  | some ch =>
    dsimp only
    split <;> rfl

/-- Live delivery does not touch the user-channel map. -/
theorem deliverLive_userChannels (st : NotifState) (userId : Nat)
    (msg : NotificationMessage) :
    (deliverLive st userId msg).userChannels = st.userChannels := by
  unfold deliverLive
  cases lookupAssoc st.userChannels userId with
  | none => rfl
  | some cid =>
    dsimp only
    exact sendNonBlocking_userChannels st cid msg

/-- The persistence step does not touch the user-channel map. -/
theorem persistNotification_userChannels (now : Int) (dbFail : Bool)
    (st : NotifState) (n : PriceDropNotification) :
    (persistNotification now dbFail st n).userChannels = st.userChannels := by
  unfold persistNotification
  cases dbFail <;> rfl

/-- C6 (amended): at most one live channel is registered per user — the
user-channel map has duplicate-free keys initially and after every connect,
disconnect and fan-out delivery; a second connect for the same user closes the
prior channel and maps the user to the fresh one; but the messages already
queued on the replaced channel remain receivable by its reader after the
replacement (closing a Go channel does not discard its buffer), so they can
still be delivered. -/
theorem register_single_channel :
    (assocKeys (([] : List (Nat × Nat)))).Nodup
    ∧ (∀ (st : NotifState) (uid : Nat), (assocKeys st.userChannels).Nodup →
        (assocKeys (RegisterUserChannel st uid).1.userChannels).Nodup)
    ∧ (∀ (st : NotifState) (uid : Nat), (assocKeys st.userChannels).Nodup →
        (assocKeys (UnregisterUserChannel st uid).userChannels).Nodup)
    ∧ (∀ (now : Int) (dbFail : Bool) (st st' : NotifState) (n : PriceDropNotification),
        consumeNotification now dbFail st n = .ok st' →
        st'.userChannels = st.userChannels)
    ∧ (∀ (st : NotifState) (uid cid : Nat) (ch : LiveChannel),
        lookupAssoc st.userChannels uid = some cid →
        st.chans.get? cid = some ch →
        lookupAssoc (RegisterUserChannel st uid).1.userChannels uid =
            some (RegisterUserChannel st uid).2
        ∧ (RegisterUserChannel st uid).2 ≠ cid
        ∧ (RegisterUserChannel st uid).1.chans.get? cid = some ⟨ch.buf, true⟩
        ∧ ∀ (m : NotificationMessage) (rest : List NotificationMessage),
            ch.buf = m :: rest →
            deliveredMessage (chanReceive (RegisterUserChannel st uid).1 cid) = some m) := by
  refine ⟨List.nodup_nil, ?_, ?_, ?_, ?_⟩
  · intro st uid h
    unfold RegisterUserChannel
    cases hl : lookupAssoc st.userChannels uid with
    | none =>
      dsimp only
      exact assocKeys_setAssoc_nodup _ _ h
    | some cid =>
      dsimp only
      rw [closeChan_userChannels]
      exact assocKeys_setAssoc_nodup _ _ h
  · intro st uid h
    unfold UnregisterUserChannel
    cases hl : lookupAssoc st.userChannels uid with
    | none => exact h
    | some cid =>
      dsimp only
      rw [closeChan_userChannels]
      exact assocKeys_removeAssoc_nodup _ h
  · intro now dbFail st st' n h
    unfold consumeNotification at h
    rw [Except.ok.injEq] at h
    subst h
    rw [deliverLive_userChannels, persistNotification_userChannels]
  · intro st uid cid ch hl hc
    have hlt : cid < st.chans.length := by
      by_contra hge
      push_neg at hge
      rw [List.get?_eq_none.mpr hge] at hc
      exact Option.noConfusion hc
    unfold RegisterUserChannel
    rw [hl]
    dsimp only
    have hcc : (closeChan st cid).chans =
        st.chans.set cid { ch with closed := true } := by
      unfold closeChan
      rw [hc]
    refine ⟨?_, ?_, ?_, ?_⟩
    · rw [closeChan_userChannels]
      exact lookupAssoc_setAssoc _ _ _
    · rw [closeChan_chans_length]
      exact Nat.ne_of_gt hlt
    · rw [hcc]
      rw [List.get?_eq_getElem?]
      rw [List.getElem?_append_left (by simpa using hlt)]
      rw [List.getElem?_set_self (by simpa using hlt)]
    · intro m rest hbuf
      unfold chanReceive
      rw [hcc]
      rw [List.get?_eq_getElem?]
      rw [List.getElem?_append_left (by simpa using hlt)]
      rw [List.getElem?_set_self (by simpa using hlt)]
      dsimp only
      rw [hbuf]
      rfl

/-- Witness for C6's amended theorem: reconnecting user 1 on `c6State2` (one
queued message on channel 0) maps the user to the fresh channel and the queued
message is still receivable from the replaced channel. -/
theorem register_single_channel_witness :
    lookupAssoc (RegisterUserChannel c6State2 1).1.userChannels 1 =
        some (RegisterUserChannel c6State2 1).2
    ∧ (RegisterUserChannel c6State2 1).2 ≠ 0
    ∧ deliveredMessage (chanReceive (RegisterUserChannel c6State2 1).1 0) =
        some (renderMessage c6Event) := by
  obtain ⟨h1, h2, h3, h4⟩ := register_single_channel.2.2.2.2 c6State2 1 0
    ⟨[renderMessage c6Event], false⟩ (by rfl) (by rfl)
  exact ⟨h1, h2, h4 (renderMessage c6Event) [] rfl⟩

/-- C6 does not hold as stated: in `c6State3` user 1 has reconnected, the map
points to the fresh channel 1 and the old channel 0 is closed, yet a receive
on channel 0 still delivers the message that was queued on it before the
replacement — queued messages of a replaced channel can still be delivered. -/
theorem register_single_channel_broken :
    lookupAssoc c6State3.userChannels 1 = some 1
    ∧ (c6State3.chans.get? 0).map LiveChannel.closed = some true
    ∧ deliveredMessage (chanReceive c6State3 0) = some (renderMessage c6Event) :=
  ⟨rfl, rfl, rfl⟩

/-! ## C10: a publish updates every alert of the notified user -/

/-- C10: the post-publish update loop sets the last-notification time of
exactly the stored alerts whose user matches the notified alert's user,
leaving every other alert untouched; end to end, a price drop that notifies
user 7 under the 15% rule also resets the window of user 7's 50% rule on the
same product (which then no longer fires in the same pass), while user 8's
alert is left unchanged. -/
theorem notify_updates_all_user_alerts :
    (∀ (now : Int) (uid : Nat) (alerts : List PriceAlert),
        List.Forall₂ (fun a a' =>
            a' = if a.userId = uid then { a with lastNotification := now } else a)
          alerts (updateLastNotificationTimes now uid alerts))
    ∧ (processProductUpdate c3Now c3FindVariant (fun _ => false) c3Product [c3Record1]
          [(1, c10Alerts)] =
        ([(1, [⟨7, 1, 0, 15, c3Now⟩, ⟨7, 1, 0, 50, c3Now⟩, ⟨8, 1, 0, 50, 0⟩])],
         [⟨7, 1, 2, 100, 80, 20, "Demo", "u"⟩])) := by
  constructor
  · intro now uid alerts
    induction alerts with
    | nil => exact List.Forall₂.nil
    | cons a rest ih =>
      unfold updateLastNotificationTimes
      rw [List.map_cons]
      refine List.Forall₂.cons ?_ ih
      by_cases h : a.userId = uid
      · simp [h]
      · simp [h]
  · rfl

/-! ## C3: anti-spam suppression -/

/-- A history pass for an alert whose window has not yet elapsed changes
nothing and publishes nothing. -/
theorem processHistories_stale (now : Int) (fv : Nat → Option Variant)
    (pf : PriceDropNotification → Bool) (prod : Product) (alert : PriceAlert)
    (hstale : now - alert.lastNotification ≤ 24 * 3600) :
    ∀ (histories : List PriceHistory) (alerts : List PriceAlert)
      (sent : List PriceDropNotification),
      processHistories now fv pf prod alert histories alerts sent = (alerts, sent) := by
  intro histories
  induction histories with
  | nil => intro alerts sent; rfl
  | cons h rest ih =>
    intro alerts sent
    unfold processHistories
    rw [if_neg]
    · exact ih alerts sent
    · rintro ⟨-, ht⟩
      omega

/-- The alert pass publishes nothing when every alert of the product is inside
its 24-hour window. -/
theorem processAlertsAux_stale (now : Int) (fv : Nat → Option Variant)
    (pf : PriceDropNotification → Bool) (prod : Product)
    (histories : List PriceHistory) :
    ∀ (k i : Nat) (alerts : List PriceAlert) (sent : List PriceDropNotification),
      (∀ a ∈ alerts, now - a.lastNotification ≤ 24 * 3600) →
      processAlertsAux now fv pf prod histories k i alerts sent = (alerts, sent) := by
  intro k
  induction k with
  | zero => intro i alerts sent _; rfl
  | succ k ih =>
    intro i alerts sent hstale
    unfold processAlertsAux
    cases hg : alerts.get? i with
    | none => rfl
    | some alert =>
      dsimp only
      have hmem : alert ∈ alerts := by
        rw [List.get?_eq_getElem?] at hg
        exact List.getElem?_mem hg
      rw [processHistories_stale now fv pf prod alert (hstale alert hmem)]
      exact ih (i + 1) alerts sent hstale

/-- Unfolding equation: the alert pass at exhausted fuel. -/
theorem processAlertsAux_zero (now : Int) (fv : Nat → Option Variant)
    (pf : PriceDropNotification → Bool) (prod : Product)
    (histories : List PriceHistory) (i : Nat) (alerts : List PriceAlert)
    (sent : List PriceDropNotification) :
    processAlertsAux now fv pf prod histories 0 i alerts sent = (alerts, sent) := rfl

/-- Unfolding equation: one outer iteration of the alert pass. -/
theorem processAlertsAux_succ (now : Int) (fv : Nat → Option Variant)
    (pf : PriceDropNotification → Bool) (prod : Product)
    (histories : List PriceHistory) (k i : Nat) (alerts : List PriceAlert)
    (sent : List PriceDropNotification) :
    processAlertsAux now fv pf prod histories (k + 1) i alerts sent =
      match alerts.get? i with
      | none => (alerts, sent)
      | some alert =>
        processAlertsAux now fv pf prod histories k (i + 1)
          (processHistories now fv pf prod alert histories alerts sent).1
          (processHistories now fv pf prod alert histories alerts sent).2 := rfl

/-- Unfolding equation: the history pass on an exhausted batch. -/
theorem processHistories_nil (now : Int) (fv : Nat → Option Variant)
    (pf : PriceDropNotification → Bool) (prod : Product) (alert : PriceAlert)
    (alerts : List PriceAlert) (sent : List PriceDropNotification) :
    processHistories now fv pf prod alert [] alerts sent = (alerts, sent) := rfl

/-- The reduction of `processProductUpdate` when the product has alerts and
records were fetched. -/
theorem processProductUpdate_found (now : Int) (fv : Nat → Option Variant)
    (pf : PriceDropNotification → Bool) (prod : Product)
    (histories : List PriceHistory) (priceAlerts : List (Nat × List PriceAlert))
    (alerts : List PriceAlert)
    (hlook : lookupAssoc priceAlerts prod.id = some alerts)
    (hlen : histories.length > 0) :
    processProductUpdate now fv pf prod histories priceAlerts =
      (setAssoc priceAlerts prod.id
        (processAlertsAux now fv pf prod histories alerts.length 0 alerts []).1,
       (processAlertsAux now fv pf prod histories alerts.length 0 alerts []).2) := by
  unfold processProductUpdate
  rw [hlook]
  dsimp only
  rw [if_pos hlen]

/-- C3 does not hold as stated: one 15%-threshold rule, last notified long
ago, is given two -20% records fetched for a single item-changed event; the
loop publishes two notify-events for that rule, because the suppression check
keeps reading the alert copy taken before the first publish.  Multiple
qualifying drops within 24 hours for the same rule thus do not produce only
one notification. -/
theorem alert_antispam_broken :
    (processProductUpdate c3Now c3FindVariant (fun _ => false) c3Product
        [c3Record1, c3Record2] [(1, [⟨7, 1, 0, 15, 0⟩])]).2.length = 2
    ∧ ¬ ((processProductUpdate c3Now c3FindVariant (fun _ => false) c3Product
        [c3Record1, c3Record2] [(1, [⟨7, 1, 0, 15, 0⟩])]).2.length ≤ 1) := by
  constructor
  · rfl
  · decide

/-- C3 (amended): for a single fetched change record and a single rule, a
notify-event is published exactly when the drop reaches the threshold and more
than 24 hours have elapsed since the rule's last-notified timestamp (the 1-hour
example publishes nothing, the 25-hour example publishes once); and since a
successful publish sets last-notified to now, a later event arriving while
every rule of the product is inside its 24-hour window publishes nothing —
only change records processed within one and the same event batch can escape
the suppression. -/
theorem alert_antispam :
    (∀ (now : Int) (fv : Nat → Option Variant) (prod : Product)
        (h : PriceHistory) (a : PriceAlert) (w : Variant),
        fv h.variantId = some w →
        (processProductUpdate now fv (fun _ => false) prod [h] [(prod.id, [a])]).2 =
          (if h.changePercent ≤ -a.discountPercent ∧
              now - a.lastNotification > 24 * 3600
           then [⟨a.userId, prod.id, w.id, h.previousPrice, h.newPrice,
                  -h.changePercent, prod.name, prod.url⟩]
           else []))
    ∧ (∀ (now : Int) (fv : Nat → Option Variant) (pf : PriceDropNotification → Bool)
          (prod : Product) (histories : List PriceHistory)
          (priceAlerts : List (Nat × List PriceAlert)) (alerts : List PriceAlert),
        lookupAssoc priceAlerts prod.id = some alerts →
        (∀ a ∈ alerts, now - a.lastNotification ≤ 24 * 3600) →
        (processProductUpdate now fv pf prod histories priceAlerts).2 = [])
    ∧ ((processProductUpdate c3Now c3FindVariant (fun _ => false) c3Product [c3Record1]
          [(1, [⟨7, 1, 0, 15, c3Now - 3600⟩])]).2 = []
        ∧ (processProductUpdate c3Now c3FindVariant (fun _ => false) c3Product [c3Record1]
            [(1, [⟨7, 1, 0, 15, c3Now - 25 * 3600⟩])]).2 =
          [⟨7, 1, 2, 100, 80, 20, "Demo", "u"⟩]) := by
  refine ⟨?_, ?_, ?_, ?_⟩
  · intro now fv prod h a w hw
    have hlook : lookupAssoc [(prod.id, [a])] prod.id = some [a] := by
      unfold lookupAssoc
      simp [List.find?]
    rw [processProductUpdate_found now fv (fun _ => false) prod [h] [(prod.id, [a])]
      [a] hlook (by simp)]
    dsimp only
    rw [show ([a] : List PriceAlert).length = 0 + 1 from rfl, processAlertsAux_succ]
    dsimp only [List.get?]
    rw [processAlertsAux_zero]
    dsimp only
    unfold processHistories
    by_cases hcond : h.changePercent ≤ -a.discountPercent ∧
        now - a.lastNotification > 24 * 3600
    · rw [if_pos hcond, if_pos hcond, hw]
      dsimp only
      rw [if_neg Bool.false_ne_true, processHistories_nil]
      simp
    · rw [if_neg hcond, if_neg hcond]
      rfl
  · intro now fv pf prod histories priceAlerts alerts hlook hstale
    by_cases hlen : histories.length > 0
    · rw [processProductUpdate_found now fv pf prod histories priceAlerts alerts hlook hlen]
      dsimp only
      rw [processAlertsAux_stale now fv pf prod histories alerts.length 0 alerts [] hstale]
    · unfold processProductUpdate
      rw [hlook]
      dsimp only
      rw [if_neg hlen]
  · rfl
  · rfl

/-- Witness for C3's amended theorem: the rule notified 1 hour ago yields no
notify-event; the rule notified 25 hours ago yields exactly one, carrying the
drop's data. -/
theorem alert_antispam_witness :
    (processProductUpdate c3Now c3FindVariant (fun _ => false) c3Product [c3Record1]
        [(1, [⟨7, 1, 0, 15, c3Now - 3600⟩])]).2 = []
    ∧ (processProductUpdate c3Now c3FindVariant (fun _ => false) c3Product [c3Record1]
        [(1, [⟨7, 1, 0, 15, c3Now - 25 * 3600⟩])]).2 =
      [⟨7, 1, 2, 100, 80, 20, "Demo", "u"⟩] :=
  ⟨alert_antispam.2.1 c3Now c3FindVariant (fun _ => false) c3Product [c3Record1]
      [(1, [⟨7, 1, 0, 15, c3Now - 3600⟩])] [⟨7, 1, 0, 15, c3Now - 3600⟩] rfl (by decide),
   (alert_antispam.1 c3Now c3FindVariant c3Product c3Record1 ⟨7, 1, 0, 15, c3Now - 25 * 3600⟩
      ⟨2, 1, "V1", 80, 100, 5⟩ rfl).trans (by decide)⟩

/-! ## C1 / C2 / C8: the diff transaction -/

/-- Characterization of the variant comparison loop when no database operation
fails: it stages exactly the per-variant price and stock records and rewrites
each matched incoming variant to the stored row identity. -/
theorem diffVariants_noFail (pid : Nat) (evs : List Variant) :
    ∀ (incoming : List Variant) (tx : Store) (n : Nat),
    diffVariants noFail pid evs incoming tx n =
      .ok (incoming.map (reconcileVariant pid evs),
           { tx with
             priceHistories := tx.priceHistories ++ incoming.flatMap (priceRecordsFor pid evs),
             stockHistories := tx.stockHistories ++ incoming.flatMap (stockRecordsFor pid evs) },
           n + diffOpCount pid evs incoming) := by
  intro incoming
  induction incoming with
  | nil =>
    intro tx n
    simp [diffVariants, diffOpCount]
  | cons v rest ih =>
    intro tx n
    unfold diffVariants
    cases hl : lookupVariantMap evs v.externalId with
    | none =>
      dsimp only
      rw [ih tx n]
      simp [reconcileVariant, priceRecordsFor, stockRecordsFor, hl, diffOpCount]
    | some ev =>
      dsimp only
      by_cases hp : ev.price = v.price <;> by_cases hs : ev.stockCount = v.stockCount <;>
        simp only [hp, hs, ne_eq, not_true_eq_false, not_false_eq_true, if_true, if_false,
          ite_true, ite_false, noFail, Bool.false_eq_true, ih, reconcileVariant,
          priceRecordsFor, stockRecordsFor, hl, diffOpCount, List.flatMap_cons,
          List.length_append, List.map_cons, List.append_assoc, Except.ok.injEq,
          Prod.mk.injEq, List.nil_append, List.append_nil, List.length_nil,
          List.length_cons, List.singleton_append] <;>
        exact ⟨trivial, trivial, by omega⟩

/-- The product upsert never touches the history tables. -/
theorem txSave_priceHistories (tx : Store) (p : Product) :
    (txSave tx p).priceHistories = tx.priceHistories := by
  unfold txSave
  split <;> rfl

/-- The product upsert never touches the stock history table. -/
theorem txSave_stockHistories (tx : Store) (p : Product) :
    (txSave tx p).stockHistories = tx.stockHistories := by
  unfold txSave
  split <;> rfl

/-- A failure-free reconciliation against an existing item commits the upsert
of the reconciled product over the store with exactly the diff records
staged. -/
theorem saveProduct_noFail_found (store : Store) (product existing : Product)
    (h : findProductByExternalId store product.externalId = some existing) :
    saveProduct store product noFail =
      .ok (txSave
        { store with
          priceHistories := store.priceHistories ++
            product.variants.flatMap
              (priceRecordsFor existing.id (variantsOfProduct store existing.id))
          stockHistories := store.stockHistories ++
            product.variants.flatMap
              (stockRecordsFor existing.id (variantsOfProduct store existing.id)) }
        { product with
          id := existing.id
          createdAt := existing.createdAt
          variants := product.variants.map
            (reconcileVariant existing.id (variantsOfProduct store existing.id)) }) := by
  unfold saveProduct
  rw [h]
  dsimp only [noFail]
  rw [if_neg Bool.false_ne_true, if_neg Bool.false_ne_true]
  rw [diffVariants_noFail existing.id (variantsOfProduct store existing.id)]
  dsimp only
  rw [if_neg Bool.false_ne_true, if_neg Bool.false_ne_true]

/-- The failure-free `c1Store` reconciliation commits exactly the -20% price
record and no stock record. -/
theorem c1_commit_histories :
    (saveProductRun c1Store c1Incoming noFail).2.priceHistories =
      [⟨1, 2, 100, 80, -20⟩]
    ∧ (saveProductRun c1Store c1Incoming noFail).2.stockHistories = [] := by
  have h : findProductByExternalId c1Store c1Incoming.externalId =
      some ⟨1, "P1", "Demo", "u", true, 0, [⟨2, 1, "V1", 100, 100, 5⟩]⟩ := rfl
  constructor
  · unfold saveProductRun
    rw [saveProduct_noFail_found c1Store c1Incoming _ h]
    dsimp only
    rw [txSave_priceHistories]
    show ([] : List PriceHistory) ++
        [(⟨1, 2, 100, 80, calculatePercentageChange 100 80⟩ : PriceHistory)] =
      [(⟨1, 2, 100, 80, -20⟩ : PriceHistory)]
    rw [List.nil_append]
    norm_num [calculatePercentageChange]
  · unfold saveProductRun
    rw [saveProduct_noFail_found c1Store c1Incoming _ h]
    dsimp only
    rw [txSave_stockHistories]
    rfl

/-- C1: for a reconciliation against a stored item with no database failure,
the committed price and stock history tables are extended by exactly the
per-variant diff records; for every incoming variant matched by external id
against a stored variant, that record list is a single record — previous
price, new price, change percent `(new - old)/old*100` guarded to 0 for
`old = 0` — when the prices differ and empty when they are equal (and likewise
for stock); concretely, stored price 100 and incoming price 80 commit exactly
one record ⟨prev 100, new 80, -20%⟩ and no stock record. -/
theorem diff_correctness :
    (∀ (store : Store) (product existing : Product),
        findProductByExternalId store product.externalId = some existing →
        (saveProductRun store product noFail).2.priceHistories =
          store.priceHistories ++
            product.variants.flatMap
              (priceRecordsFor existing.id (variantsOfProduct store existing.id))
        ∧ (saveProductRun store product noFail).2.stockHistories =
          store.stockHistories ++
            product.variants.flatMap
              (stockRecordsFor existing.id (variantsOfProduct store existing.id)))
    ∧ (∀ (pid : Nat) (evs : List Variant) (v ev : Variant),
        lookupVariantMap evs v.externalId = some ev →
        (priceRecordsFor pid evs v =
            if ev.price = v.price then []
            else [⟨pid, ev.id, ev.price, v.price,
                   if ev.price = 0 then 0 else ((v.price - ev.price) / ev.price) * 100⟩])
        ∧ (stockRecordsFor pid evs v =
            if ev.stockCount = v.stockCount then []
            else [⟨pid, ev.id, ev.stockCount, v.stockCount,
                   v.stockCount - ev.stockCount⟩]))
    ∧ ((saveProductRun c1Store c1Incoming noFail).2.priceHistories =
        [⟨1, 2, 100, 80, -20⟩]
        ∧ (saveProductRun c1Store c1Incoming noFail).2.stockHistories = []) := by
  refine ⟨?_, ?_, c1_commit_histories⟩
  · intro store product existing h
    unfold saveProductRun
    rw [saveProduct_noFail_found store product existing h]
    dsimp only
    rw [txSave_priceHistories, txSave_stockHistories]
    exact ⟨rfl, rfl⟩
  · intro pid evs v ev hl
    constructor
    · unfold priceRecordsFor
      rw [hl]
      unfold calculatePercentageChange
      by_cases hp : ev.price = v.price
      · simp [hp]
      · simp [hp]
    · unfold stockRecordsFor
      rw [hl]
      by_cases hs : ev.stockCount = v.stockCount
      · simp [hs]
      · simp [hs]

/-- Witness for C1 at the concrete scenario: the committed tables match the
diff characterization, and the per-variant record for stored price 100 and
incoming price 80 is exactly ⟨1, 2, 100, 80, -20⟩. -/
theorem diff_correctness_witness :
    ((saveProductRun c1Store c1Incoming noFail).2.priceHistories =
        c1Store.priceHistories ++
          c1Incoming.variants.flatMap
            (priceRecordsFor 1 (variantsOfProduct c1Store 1))
      ∧ (saveProductRun c1Store c1Incoming noFail).2.stockHistories =
        c1Store.stockHistories ++
          c1Incoming.variants.flatMap
            (stockRecordsFor 1 (variantsOfProduct c1Store 1)))
    ∧ priceRecordsFor 1 [⟨2, 1, "V1", 100, 100, 5⟩] ⟨0, 0, "V1", 80, 100, 5⟩ =
        [⟨1, 2, 100, 80, -20⟩] :=
  ⟨diff_correctness.1 c1Store c1Incoming
      ⟨1, "P1", "Demo", "u", true, 0, [⟨2, 1, "V1", 100, 100, 5⟩]⟩ rfl,
   ((diff_correctness.2.1 1 [⟨2, 1, "V1", 100, 100, 5⟩] ⟨0, 0, "V1", 80, 100, 5⟩
      ⟨2, 1, "V1", 100, 100, 5⟩ rfl).1).trans (by norm_num [calculatePercentageChange])⟩

/-- C2: whenever any step of `saveProduct` fails, the observable store after
the call is exactly the store before it — no change record or product update
from the failed call is visible; concretely, failing the product-upsert step
of the `c1Store` reconciliation (after a price record was staged) leaves the
store untouched, while the failure-free run of the same reconciliation does
commit the staged price record. -/
theorem save_atomicity :
    (∀ (store : Store) (product : Product) (fail : Nat → Bool),
        (saveProductRun store product fail).1 = false →
        (saveProductRun store product fail).2 = store)
    ∧ saveProductRun c1Store c1Incoming failUpsert = (false, c1Store)
    ∧ c1Store.priceHistories = []
    ∧ (saveProductRun c1Store c1Incoming noFail).2.priceHistories =
        [⟨1, 2, 100, 80, -20⟩] := by
  refine ⟨?_, by decide, rfl, c1_commit_histories.1⟩
  intro store product fail h
  unfold saveProductRun at h ⊢
  cases hs : saveProduct store product fail with
  | ok s =>
    rw [hs] at h
    simp at h
  | error e => rfl

/-- Witness for C2: the run that fails at the product-upsert step reports
failure and leaves the store exactly as it was. -/
theorem save_atomicity_witness :
    (saveProductRun c1Store c1Incoming failUpsert).1 = false
    ∧ (saveProductRun c1Store c1Incoming failUpsert).2 = c1Store :=
  ⟨by decide, save_atomicity.1 c1Store c1Incoming failUpsert (by decide)⟩

/-- A store none of whose products carries the external id yields no lookup
result. -/
theorem findProductByExternalId_eq_none (s : Store) (e : String)
    (h : ∀ q ∈ s.products, q.externalId ≠ e) :
    findProductByExternalId s e = none := by
  unfold findProductByExternalId
  rw [List.find?_eq_none]
  intro q hq
  simp [h q hq]

/-- A failure-free reconciliation of a never-before-seen item is a plain
insert. -/
theorem saveProduct_noFail_new (store : Store) (p : Product)
    (h : findProductByExternalId store p.externalId = none) :
    saveProduct store p noFail = .ok (txSave store p) := by
  unfold saveProduct
  rw [h]
  dsimp only [noFail]
  rw [if_neg Bool.false_ne_true, if_neg Bool.false_ne_true, if_neg Bool.false_ne_true]

/-- The upsert of a product with no row id inserts a fresh row. -/
theorem txSave_insert (tx : Store) (p : Product) (h0 : p.id = 0) :
    txSave tx p =
      { tx with
        products := tx.products ++
          [{ p with
             id := tx.nextId
             variants := (assignVariantIds tx.nextId p.variants (tx.nextId + 1)).1 }]
        nextId := (assignVariantIds tx.nextId p.variants (tx.nextId + 1)).2 } := by
  unfold txSave
  rw [if_neg]
  simp [h0]

/-- The upsert of a product whose nonzero row id is present updates that
row in place. -/
theorem txSave_update (tx : Store) (p : Product) (hid : p.id ≠ 0)
    (hmem : tx.products.any (fun q => q.id == p.id) = true) :
    txSave tx p =
      { tx with
        products := tx.products.map (fun q =>
          if q.id == p.id then
            { p with variants := (assignVariantIds p.id p.variants tx.nextId).1 }
          else q)
        nextId := (assignVariantIds p.id p.variants tx.nextId).2 } := by
  unfold txSave
  rw [if_pos]
  simp [hmem, hid]

/-- Row-id assignment preserves external id, price and stock of every
variant, in order. -/
theorem assignVariantIds_fields (pid : Nat) :
    ∀ (vs : List Variant) (next : Nat),
    (assignVariantIds pid vs next).1.map (fun w => (w.externalId, w.price, w.stockCount)) =
      vs.map (fun v => (v.externalId, v.price, v.stockCount)) := by
  intro vs
  induction vs with
  | nil => intro next; rfl
  | cons v rest ih =>
    intro next
    unfold assignVariantIds
    by_cases h : v.id = 0
    · rw [if_pos h]
      dsimp only
      rw [List.map_cons, List.map_cons, ih]
    · rw [if_neg h]
      dsimp only
      rw [List.map_cons, List.map_cons, ih]

/-- A variant-map lookup result is a stored variant with the looked-up
external id. -/
theorem lookupVariantMap_some {vs : List Variant} {e : String} {w : Variant}
    (h : lookupVariantMap vs e = some w) : w ∈ vs ∧ w.externalId = e := by
  unfold lookupVariantMap at h
  have h1 := List.find?_some h
  have h2 := List.mem_of_find?_eq_some h
  rw [List.mem_reverse] at h2
  refine ⟨h2, by simpa using h1⟩

/-- A failure-free run on a never-before-seen item inserts one row carrying
the snapshot's data and fresh variant row ids. -/
theorem saveProductRun_insert (store : Store) (p : Product)
    (h0 : p.id = 0)
    (h2 : ∀ q ∈ store.products, q.externalId ≠ p.externalId) :
    saveProductRun store p noFail =
      (true,
       { store with
         products := store.products ++
           [{ p with
              id := store.nextId
              variants := (assignVariantIds store.nextId p.variants (store.nextId + 1)).1 }]
         nextId := (assignVariantIds store.nextId p.variants (store.nextId + 1)).2 }) := by
  unfold saveProductRun
  rw [saveProduct_noFail_new store p (findProductByExternalId_eq_none store p.externalId h2)]
  rw [txSave_insert store p h0]

/-- Re-running the reconciliation of a fresh item on the store that already
holds its inserted row succeeds, leaves both history tables untouched and
keeps exactly one row with the item's external id. -/
theorem saveProductRun_reinsert (store : Store) (p : Product)
    (h0 : p.id = 0) (h1 : 0 < store.nextId)
    (h2 : ∀ q ∈ store.products, q.externalId ≠ p.externalId)
    (h3 : ∀ q ∈ store.products, q.id < store.nextId)
    (h4 : (p.variants.map Variant.externalId).Nodup) :
    (saveProductRun (saveProductRun store p noFail).2 p noFail).1 = true
    ∧ (saveProductRun (saveProductRun store p noFail).2 p noFail).2.priceHistories =
        store.priceHistories
    ∧ (saveProductRun (saveProductRun store p noFail).2 p noFail).2.stockHistories =
        store.stockHistories
    ∧ (saveProductRun (saveProductRun store p noFail).2 p noFail).2.products.countP
        (fun q => q.externalId == p.externalId) = 1 := by
  rw [saveProductRun_insert store p h0 h2]
  dsimp only
  set vs1 := (assignVariantIds store.nextId p.variants (store.nextId + 1)).1 with hvs1
  set nid := (assignVariantIds store.nextId p.variants (store.nextId + 1)).2 with hnid
  set row : Product := { p with id := store.nextId, variants := vs1 } with hrow
  set store1 : Store :=
    { store with products := store.products ++ [row], nextId := nid } with hstore1
  have hrowid : row.id = store.nextId := rfl
  have hverb : vs1.map (fun w => (w.externalId, w.price, w.stockCount)) =
      p.variants.map (fun v => (v.externalId, v.price, v.stockCount)) := by
    rw [hvs1]
    exact assignVariantIds_fields store.nextId p.variants (store.nextId + 1)
  have hfind2 : findProductByExternalId store1 p.externalId = some row := by
    unfold findProductByExternalId
    show (store.products ++ [row]).find? (fun q => q.externalId == p.externalId) = some row
    rw [List.find?_append]
    rw [show store.products.find? (fun q => q.externalId == p.externalId) = none from by
      rw [List.find?_eq_none]
      intro q hq
      simp [h2 q hq]]
    simp [List.find?]
  have hvars2 : variantsOfProduct store1 store.nextId = vs1 := by
    unfold variantsOfProduct
    show (match (store.products ++ [row]).find? (fun q => q.id == store.nextId) with
      | some q => q.variants
      | none => []) = vs1
    rw [List.find?_append]
    rw [show store.products.find? (fun q => q.id == store.nextId) = none from by
      rw [List.find?_eq_none]
      intro q hq
      simp [Nat.ne_of_lt (h3 q hq)]]
    simp [List.find?]
  have hagree : ∀ v ∈ p.variants, ∀ w, lookupVariantMap vs1 v.externalId = some w →
      w.price = v.price ∧ w.stockCount = v.stockCount := by
    intro v hv w hw
    obtain ⟨hwmem, hwext⟩ := lookupVariantMap_some hw
    have htrip : (w.externalId, w.price, w.stockCount) ∈
        p.variants.map (fun v => (v.externalId, v.price, v.stockCount)) := by
      rw [← hverb]
      exact List.mem_map_of_mem _ hwmem
    rw [List.mem_map] at htrip
    obtain ⟨v2, hv2, htv⟩ := htrip
    simp only [Prod.mk.injEq] at htv
    obtain ⟨he, hpq, hsq⟩ := htv
    have hv2v : v2 = v :=
      List.inj_on_of_nodup_map h4 hv2 hv (by rw [he, hwext])
    subst hv2v
    exact ⟨hpq.symm, hsq.symm⟩
  have hrecs : ∀ v ∈ p.variants,
      priceRecordsFor store.nextId vs1 v = [] ∧
      stockRecordsFor store.nextId vs1 v = [] := by
    intro v hv
    constructor
    · unfold priceRecordsFor
      cases hl : lookupVariantMap vs1 v.externalId with
      | none => rfl
      | some w =>
        dsimp only
        rw [if_neg (not_ne_iff.mpr (hagree v hv w hl).1)]
    · unfold stockRecordsFor
      cases hl : lookupVariantMap vs1 v.externalId with
      | none => rfl
      | some w =>
        dsimp only
        rw [if_neg (not_ne_iff.mpr (hagree v hv w hl).2)]
  have hflatp : p.variants.flatMap (priceRecordsFor store.nextId vs1) = [] :=
    List.flatMap_eq_nil_iff.mpr (fun v hv => (hrecs v hv).1)
  have hflats : p.variants.flatMap (stockRecordsFor store.nextId vs1) = [] :=
    List.flatMap_eq_nil_iff.mpr (fun v hv => (hrecs v hv).2)
  have hfound2 := saveProduct_noFail_found store1 p row hfind2
  rw [hrowid, hvars2, hflatp, hflats, List.append_nil, List.append_nil] at hfound2
  rw [show ({ store1 with
        priceHistories := store1.priceHistories
        stockHistories := store1.stockHistories } : Store) = store1 from rfl] at hfound2
  have hrun2 : ∀ pr : Store → Prop,
      pr (txSave store1
        { p with
          id := store.nextId
          createdAt := row.createdAt
          variants := p.variants.map (reconcileVariant store.nextId vs1) }) →
      pr (saveProductRun store1 p noFail).2 := by
    intro pr hpr
    unfold saveProductRun
    rw [hfound2]
    exact hpr
  refine ⟨?_, ?_, ?_, ?_⟩
  · unfold saveProductRun
    rw [hfound2]
  · exact hrun2 (fun s => s.priceHistories = store.priceHistories)
      (by dsimp only; rw [txSave_priceHistories])
  · exact hrun2 (fun s => s.stockHistories = store.stockHistories)
      (by dsimp only; rw [txSave_stockHistories])
  · refine hrun2 (fun s => s.products.countP (fun q => q.externalId == p.externalId) = 1) ?_
    dsimp only
    set P2 : Product := { p with id := store.nextId, createdAt := row.createdAt, variants := p.variants.map (reconcileVariant store.nextId vs1) } with hP2
    have hP2id : P2.id = store.nextId := rfl
    rw [txSave_update store1 P2 (by rw [hP2id]; omega) (by
      show (store.products ++ [row]).any (fun q => q.id == P2.id) = true
      rw [List.any_append]
      have hb : (row.id == P2.id) = true := by
        rw [hrowid]
        simp
      simp [hb])]
    dsimp only
    show ((store.products ++ [row]).map (fun q =>
        if q.id == P2.id then
          { P2 with variants := (assignVariantIds P2.id P2.variants store1.nextId).1 }
        else q)).countP (fun q => q.externalId == p.externalId) = 1
    rw [List.map_append, List.map_cons, List.map_nil]
    rw [show store.products.map (fun q =>
        if q.id == P2.id then
          { P2 with variants := (assignVariantIds P2.id P2.variants store1.nextId).1 }
        else q) = store.products from by
      calc store.products.map _ = store.products.map (fun q => q) :=
            List.map_congr_left (fun q hq => by
              rw [if_neg]
              rw [hP2id]
              simp [Nat.ne_of_lt (h3 q hq)])
        _ = store.products := List.map_id' store.products]
    rw [if_pos (show (row.id == P2.id) = true from by rw [hrowid]; simp)]
    rw [List.countP_append]
    rw [show store.products.countP (fun q => q.externalId == p.externalId) = 0 from by
      rw [List.countP_eq_zero]
      intro q hq
      simp [h2 q hq]]
    have hnr : (({ P2 with variants := (assignVariantIds P2.id P2.variants store1.nextId).1 } : Product).externalId == p.externalId) = true := by
      show (p.externalId == p.externalId) = true
      simp
    simp [List.countP_cons, hnr]

/-- C8: reconciling a never-before-seen item (fresh external id, zero row ids)
inserts one row carrying the snapshot's variants verbatim (same external ids,
prices and stock counts, in order) with no change record; reconciling the
identical snapshot a second time succeeds as a no-op diff: after both calls
the store holds exactly one row with the item's external id and both history
tables are exactly as they were before the first call. -/
theorem new_item_idempotent (store : Store) (p : Product)
    (h0 : p.id = 0) (h1 : 0 < store.nextId)
    (h2 : ∀ q ∈ store.products, q.externalId ≠ p.externalId)
    (h3 : ∀ q ∈ store.products, q.id < store.nextId)
    (h4 : (p.variants.map Variant.externalId).Nodup) :
    (saveProductRun store p noFail).1 = true
    ∧ (saveProductRun store p noFail).2.products =
        store.products ++
          [{ p with
             id := store.nextId
             variants := (assignVariantIds store.nextId p.variants (store.nextId + 1)).1 }]
    ∧ (saveProductRun store p noFail).2.priceHistories = store.priceHistories
    ∧ (saveProductRun store p noFail).2.stockHistories = store.stockHistories
    ∧ ((assignVariantIds store.nextId p.variants (store.nextId + 1)).1.map
        (fun w => (w.externalId, w.price, w.stockCount)) =
        p.variants.map (fun v => (v.externalId, v.price, v.stockCount)))
    ∧ (saveProductRun (saveProductRun store p noFail).2 p noFail).1 = true
    ∧ (saveProductRun (saveProductRun store p noFail).2 p noFail).2.priceHistories =
        store.priceHistories
    ∧ (saveProductRun (saveProductRun store p noFail).2 p noFail).2.stockHistories =
        store.stockHistories
    ∧ (saveProductRun (saveProductRun store p noFail).2 p noFail).2.products.countP
        (fun q => q.externalId == p.externalId) = 1 := by
  obtain ⟨g1, g2, g3, g4⟩ := saveProductRun_reinsert store p h0 h1 h2 h3 h4
  refine ⟨?_, ?_, ?_, ?_, assignVariantIds_fields store.nextId p.variants (store.nextId + 1),
    g1, g2, g3, g4⟩
  · rw [saveProductRun_insert store p h0 h2]
  · rw [saveProductRun_insert store p h0 h2]
  · rw [saveProductRun_insert store p h0 h2]
  · rw [saveProductRun_insert store p h0 h2]

/-- Witness for C8: the two-variant snapshot `c8Snapshot` reconciled twice
against the empty store commits no change record and leaves exactly one row
with its external id. -/
theorem new_item_idempotent_witness :
    (saveProductRun (saveProductRun c8Store c8Snapshot noFail).2 c8Snapshot noFail).1 = true
    ∧ (saveProductRun (saveProductRun c8Store c8Snapshot noFail).2 c8Snapshot
        noFail).2.priceHistories = c8Store.priceHistories
    ∧ (saveProductRun (saveProductRun c8Store c8Snapshot noFail).2 c8Snapshot
        noFail).2.products.countP (fun q => q.externalId == c8Snapshot.externalId) = 1 := by
  obtain ⟨-, -, -, -, -, g6, g7, -, g9⟩ :=
    new_item_idempotent c8Store c8Snapshot rfl (by decide)
      (by intro q hq; exact absurd hq (by simp [c8Store]))
      (by intro q hq; exact absurd hq (by simp [c8Store]))
      (by decide)
  exact ⟨g6, g7, g9⟩
